import Mathlib

/-!
Shallow embedding of `main.py` of the `api_create_video_v1` service.

The service is a FastAPI app with two endpoints.  `POST /create_video`
(`create_video`) validates the request body against the pydantic model
`VideoRequest`, stores a fresh record in the in-memory dict `video_db` and
schedules `process_video` as a background task.  `GET /video_status/{id}`
(`video_status`) reads the record back.  `process_video` downloads the audio
segments (`download_file`), composes the video with moviepy, uploads it to
Google Drive (`upload_to_googledrive`), fires the webhook (`send_webhook`) and
finally deletes its temporary files.

External effects (HTTP responses, moviepy, the Drive API) are parameters of
the embedding (`Env`): each library call either raises (an error string) or
succeeds, exactly at the call sites the Python code has.  The filesystem is an
association list from path to content.  Python local-variable scoping matters
for the `finally` block of `process_video`, which mentions the locals
`final_audio_path` and `video_file` that are not yet assigned when an
exception occurs early; the embedding tracks assignment with `Option`.
-/

set_option linter.unusedVariables false

namespace ApiCreateVideo

/-- A filesystem: a finite map from path to file content, as an
association list (most recent write first). -/
abbrev FS := List (String × String)

/-- `os.path.exists`. -/
def FS.fileExists (fs : FS) (p : String) : Bool :=
  fs.any (fun e => e.1 == p)

/-- `open(dest_path, 'wb')` followed by writing `c`. -/
def FS.write (fs : FS) (p c : String) : FS :=
  (p, c) :: fs.filter (fun e => e.1 != p)

/-- `os.remove` (the code only calls it on paths that exist; on an absent
path this is a no-op, which is observationally the same). -/
def FS.removeFile (fs : FS) (p : String) : FS :=
  fs.filter (fun e => e.1 != p)

/-- The result of `requests.get(url, stream=True)`: a status code and the
raw body bytes. -/
structure HttpResponse where
  status_code : Nat
  raw : String

/-- One value of the dict `video_db[video_id]`: the fields the code stores
at admission and mutates during processing. -/
structure TaskInfo where
  status : String
  url : Option String
  task_id : String
  webhook_url : Option String
deriving Repr, DecidableEq

/-- The in-memory registry `video_db`, an association list keyed by
`video_id` (the Python dict; lookup finds the unique binding). -/
abbrev DB := List (String × TaskInfo)

/-- Dict read `video_db.get(video_id)`. -/
def DB.entry (db : DB) (id : String) : Option TaskInfo :=
  List.lookup id db

/-- `video_db[video_id]["status"] = s`. -/
def DB.setStatus (db : DB) (id s : String) : DB :=
  db.map (fun e => if e.1 == id then (e.1, { e.2 with status := s }) else e)

/-- `video_db[video_id]["url"] = u`. -/
def DB.setUrl (db : DB) (id : String) (u : Option String) : DB :=
  db.map (fun e => if e.1 == id then (e.1, { e.2 with url := u }) else e)

/-- The pydantic request model `VideoRequest` (all fields required except
`webhook_url`, which defaults to `None`). -/
structure VideoRequest where
  task_id : String
  story_name : String
  chapter : String
  image_path : String
  audio_urls : List String
  webhook_url : Option String
deriving Repr, DecidableEq

/-- A request body as received on the wire, before pydantic validation:
any field may be absent. -/
structure RawRequest where
  task_id : Option String
  story_name : Option String
  chapter : Option String
  image_path : Option String
  audio_urls : Option (List String)
  webhook_url : Option String

/-- Pydantic validation of `VideoRequest`: every non-defaulted field must be
present; there is no constraint on the contents (in particular an empty
`audio_urls` list is accepted). -/
def RawRequest.validate (r : RawRequest) : Option VideoRequest :=
  match r.task_id, r.story_name, r.chapter, r.image_path, r.audio_urls with
  | some t, some s, some c, some i, some a =>
      some { task_id := t, story_name := s, chapter := c, image_path := i,
             audio_urls := a, webhook_url := r.webhook_url }
  | _, _, _, _, _ => none

/-- The JSON body returned by `POST /create_video`. -/
structure CreateVideoResponse where
  video_id : String
  status : String
  url : Option String
  task_id : String
deriving Repr, DecidableEq

/-- The background task scheduled by `create_video`: the argument tuple
passed to `process_video`. -/
structure PendingTask where
  video_id : String
  story_name : String
  chapter : String
  image_path : String
  audio_urls : List String
deriving Repr, DecidableEq

/-- The handler body of `POST /create_video`.  `video_id` is the fresh
`uuid.uuid4()` string supplied by the runtime.  It stores the initial
record, schedules `process_video`, and returns the response dict. -/
def create_video (db : DB) (video_id : String) (req : VideoRequest) :
    DB × CreateVideoResponse × PendingTask :=
  ( (video_id, { status := "processing", url := none, task_id := req.task_id,
                 webhook_url := req.webhook_url }) :: db,
    { video_id := video_id, status := "processing", url := none,
      task_id := req.task_id },
    { video_id := video_id, story_name := req.story_name,
      chapter := req.chapter, image_path := req.image_path,
      audio_urls := req.audio_urls } )

/-- The full `POST /create_video` endpoint including the framework's
pydantic step: a body that fails validation is rejected with a 422 and the
handler never runs. -/
def handle_create_video (db : DB) (video_id : String) (raw : RawRequest) :
    Except String (DB × CreateVideoResponse × PendingTask) :=
  match raw.validate with
  | none => .error "422 Unprocessable Entity"
  | some req => .ok (create_video db video_id req)

/-- The handler of `GET /video_status/{video_id}`. -/
def video_status (db : DB) (video_id : String) : Except String TaskInfo :=
  match DB.entry db video_id with
  | none => .error "Video not found"
  | some info => .ok info

/-- `download_file`: on a 200 response the body is written to `dest_path`
and the path returned; otherwise an exception naming the url is raised and
nothing is written. -/
def download_file (url : String) (dest_path : String) (response : HttpResponse)
    (fs : FS) : Except String (FS × String) :=
  if response.status_code == 200 then
    .ok (fs.write dest_path response.raw, dest_path)
  else
    .error ("Failed to download file from url: " ++ url)

/-- Environment of `upload_to_googledrive`: the
`GOOGLE_SERVICE_ACCOUNT_INFO` variable and the outcome of the Drive API
calls (`files().create` plus `permissions().create`), which on success
yield the new file's id. -/
structure DriveEnv where
  service_account_info : Option String
  create_result : Except String String

/-- `upload_to_googledrive`: raises when the environment variable is unset
or the Drive API fails; otherwise returns the sharing link built from the
uploaded file's id. -/
def upload_to_googledrive (env : DriveEnv) (file_path : String) :
    Except String String :=
  match env.service_account_info with
  | none => .error "Environment variable GOOGLE_SERVICE_ACCOUNT_INFO not set"
  | some _ =>
    match env.create_result with
    | .error e => .error e
    | .ok file_id =>
        .ok ("https://drive.google.com/file/d/" ++ file_id ++ "/view?usp=sharing")

/-- One outbound webhook POST: target and the JSON body
`{"task_id": ..., "status": ..., "video_url": ...}` (exactly these three
keys). -/
structure WebhookCall where
  url : String
  task_id : String
  status : String
  video_url : Option String
deriving Repr, DecidableEq

/-- `send_webhook`: reads the record back from `video_db`; absent record or
falsy `webhook_url` (None or the empty string) means no POST.  Any
`RequestException` from the POST / `raise_for_status` / `.json()` is caught
and only logged, so the function never raises and touches no state; its
observable effect is the list of POSTs it makes. -/
def send_webhook (db : DB) (video_id : String) : List WebhookCall :=
  match DB.entry db video_id with
  | none => []
  | some info =>
    match info.webhook_url with
    | none => []
    | some w =>
        if w = "" then []
        else [{ url := w, task_id := info.task_id, status := info.status,
                video_url := info.url }]

/-- All external effects consumed by one `process_video` run: the HTTP
response for each audio url, the outcome of each moviepy call (grouped at
the boundaries where the code's own assignments happen), the Drive
environment, and the webhook endpoint's behaviour. -/
structure Env where
  net : String → HttpResponse
  load_audio : Except String Unit
  write_audio : Except String String
  make_clips : Except String Unit
  write_video : Except String String
  drive : DriveEnv
  webhook : String → Except String Nat

/-- `f"temp_audio_{video_id}_{idx}.mp3"`. -/
def temp_audio_path (video_id : String) (idx : Nat) : String :=
  "temp_audio_" ++ video_id ++ "_" ++ toString idx ++ ".mp3"

/-- `f"final_audio_{video_id}.mp3"`. -/
def final_audio_path_of (video_id : String) : String :=
  "final_audio_" ++ video_id ++ ".mp3"

/-- `f"video_{video_id}.mp4"`. -/
def video_file_of (video_id : String) : String :=
  "video_" ++ video_id ++ ".mp4"

/-- The step-1 loop of `process_video`: `for idx, url in enumerate(audio_urls)`,
downloading each url to its temp path and appending the path to
`audio_files`.  Returns the filesystem, the `audio_files` list, the download
calls made (url, destination) in order, and the first exception if any. -/
def fetch_loop (net : String → HttpResponse) (video_id : String) :
    List String → Nat → FS → List String → List (String × String) →
    FS × List String × List (String × String) × Option String
  | [], _, fs, acc, dls => (fs, acc, dls, none)
  | url :: rest, idx, fs, acc, dls =>
    let dest := temp_audio_path video_id idx
    match download_file url dest (net url) fs with
    | .error e => (fs, acc, dls ++ [(url, dest)], some e)
    | .ok (fs1, p) =>
        fetch_loop net video_id rest (idx + 1) fs1 (acc ++ [p]) (dls ++ [(url, dest)])

/-- State at the end of the `try` block of `process_video` (normally or via
an exception): the filesystem, the values of the locals the `finally` block
mentions (`none` = the Python local was never assigned), the downloads
performed, and the outcome (`ok` carries the Drive url from step 4). -/
structure TryOut where
  fs : FS
  audio_files : List String
  final_audio_path : Option String
  video_file : Option String
  downloads : List (String × String)
  outcome : Except String String

/-- The `try` block of `process_video`: fetch (step 1), concatenate and
write the final audio (step 2), build the clips and write the video
(step 3), upload (step 4).  Each moviepy/Drive call may raise; the locals
`final_audio_path` and `video_file` are assigned exactly where the Python
assignments sit. -/
def pipeline_try (env : Env) (fs : FS) (video_id image_path : String)
    (audio_urls : List String) : TryOut :=
  match fetch_loop env.net video_id audio_urls 0 fs [] [] with
  | (fs1, files, dls, some e) =>
      { fs := fs1, audio_files := files, final_audio_path := none,
        video_file := none, downloads := dls, outcome := .error e }
  | (fs1, files, dls, none) =>
    match env.load_audio with
    | .error e =>
        { fs := fs1, audio_files := files, final_audio_path := none,
          video_file := none, downloads := dls, outcome := .error e }
    | .ok _ =>
      let fap := final_audio_path_of video_id
      match env.write_audio with
      | .error e =>
          { fs := fs1, audio_files := files, final_audio_path := some fap,
            video_file := none, downloads := dls, outcome := .error e }
      | .ok audioBytes =>
        let fs2 := fs1.write fap audioBytes
        match env.make_clips with
        | .error e =>
            { fs := fs2, audio_files := files, final_audio_path := some fap,
              video_file := none, downloads := dls, outcome := .error e }
        | .ok _ =>
          let vf := video_file_of video_id
          match env.write_video with
          | .error e =>
              { fs := fs2, audio_files := files, final_audio_path := some fap,
                video_file := some vf, downloads := dls, outcome := .error e }
          | .ok videoBytes =>
            let fs3 := fs2.write vf videoBytes
            match upload_to_googledrive env.drive vf with
            | .error e =>
                { fs := fs3, audio_files := files, final_audio_path := some fap,
                  video_file := some vf, downloads := dls, outcome := .error e }
            | .ok driveUrl =>
                { fs := fs3, audio_files := files, final_audio_path := some fap,
                  video_file := some vf, downloads := dls, outcome := .ok driveUrl }

/-- The `finally` block of `process_video`.  It iterates over `audio_files`
removing each file, then tests `os.path.exists(final_audio_path)` and
`os.path.exists(video_file)`.  If one of those locals was never assigned
(because the `try` block raised before the assignment), the reference
itself raises `NameError`, aborting the rest of the block; that exception
propagates out of `process_video`.  Returns the filesystem and the escaping
exception, if any. -/
def cleanup (fs : FS) (audio_files : List String)
    (fapLocal vfLocal : Option String) : FS × Option String :=
  let fs1 := audio_files.foldl (fun f p => FS.removeFile f p) fs
  match fapLocal with
  | none => (fs1, some "NameError: name final_audio_path is not defined")
  | some fap =>
    let fs2 := FS.removeFile fs1 fap
    match vfLocal with
    | none => (fs2, some "NameError: name video_file is not defined")
    | some vf => (FS.removeFile fs2 vf, none)

/-- Everything observable about one `process_video` run: the successive
`video_db` states (the state on entry and the state after each mutation),
the final db and filesystem, the locals gathered, the downloads and webhook
POSTs performed, and the exception escaping `process_video`, if any. -/
structure RunResult where
  dbs : List DB
  db : DB
  fs : FS
  audio_files : List String
  downloads : List (String × String)
  webhookCalls : List WebhookCall
  raised : Option String
deriving Repr

/-- The tail of `process_video` after the `try` block: on success set
status `"completed"`, then set the url, then call `send_webhook`; on an
exception set status `"error: " + str(e)`; in both cases run the
`finally` block. -/
def finishRun (db : DB) (video_id : String) (t : TryOut) : RunResult :=
  match t.outcome with
  | .ok driveUrl =>
      let db1 := DB.setStatus db video_id "completed"
      let db2 := DB.setUrl db1 video_id (some driveUrl)
      let calls := send_webhook db2 video_id
      let c := cleanup t.fs t.audio_files t.final_audio_path t.video_file
      { dbs := [db, db1, db2], db := db2, fs := c.1,
        audio_files := t.audio_files, downloads := t.downloads,
        webhookCalls := calls, raised := c.2 }
  | .error e =>
      let db1 := DB.setStatus db video_id ("error: " ++ e)
      let c := cleanup t.fs t.audio_files t.final_audio_path t.video_file
      { dbs := [db, db1], db := db1, fs := c.1,
        audio_files := t.audio_files, downloads := t.downloads,
        webhookCalls := [], raised := c.2 }

/-- `process_video`: the `try` block followed by the success / `except` /
`finally` logic. -/
def process_video (env : Env) (db : DB) (fs : FS)
    (video_id story_name chapter image_path : String)
    (audio_urls : List String) : RunResult :=
  finishRun db video_id (pipeline_try env fs video_id image_path audio_urls)

/-- A submission followed by its scheduled background task: the handler
stores the fresh record and `process_video` then runs on the stored
state.  This is the whole life of one job. -/
def runJob (env : Env) (db0 : DB) (fs : FS) (video_id : String)
    (req : VideoRequest) : RunResult :=
  process_video env (create_video db0 video_id req).1 fs video_id
    req.story_name req.chapter req.image_path req.audio_urls

/-- The abstract job states of the specification. -/
inductive AbsStatus where
  | Queued
  | Processing
  | Completed
  | Failed
  | Unknown
deriving Repr, DecidableEq

/-- Reading of a concrete status string as an abstract state: the code
uses `"processing"`, `"completed"` and `"error: " + str(e)` (and the spec
additionally names a `"queued"` state). -/
def absStatus (s : String) : AbsStatus :=
  if s = "processing" then .Processing
  else if s = "completed" then .Completed
  else if s = "queued" then .Queued
  else if s.data.take "error: ".data.length = "error: ".data then .Failed
  else .Unknown

/-- The successive statuses of one job over a run, as abstract states:
the job's record is read in each `video_db` snapshot of the run. -/
def statusTrace (r : RunResult) (id : String) : List AbsStatus :=
  (r.dbs.filterMap (fun db => (DB.entry db id).map TaskInfo.status)).map absStatus

/-- How many records of `video_db` currently hold status `"processing"`. -/
def countProcessing (db : DB) : Nat :=
  (db.filter (fun e => e.2.status == "processing")).length

/-- A sequence of accepted submissions: each pair is the fresh uuid and the
validated request, handled by `create_video` in order. -/
def submitAll (ps : List (String × VideoRequest)) (db : DB) : DB :=
  ps.foldl (fun d p => (create_video d p.1 p.2).1) db

/-- Specification helper: the list of temp paths `enumerate` produces for
the given urls starting at index `idx`. -/
def pathsFrom (video_id : String) : Nat → List String → List String
  | _, [] => []
  | idx, _ :: rest => temp_audio_path video_id idx :: pathsFrom video_id (idx + 1) rest

/-- Specification helper: the numeric value of a decimal digit character. -/
def digitVal (c : Char) : Nat := c.toNat - 48

/-- Specification helper: the number denoted by a list of decimal digit
characters (most significant first). -/
def valOf (l : List Char) : Nat :=
  l.foldl (fun a c => 10 * a + digitVal c) 0

/-! Concrete scenario used by the counterexamples and witnesses: one
request with two audio urls and a webhook, submitted with the fresh uuid
`"vid"`, run once against an environment where everything succeeds
(`envOK`) and once against one where every download returns 404
(`env404`). -/

/-- A well-formed request with two audio segments and a webhook. -/
def reqA : VideoRequest :=
  { task_id := "t1", story_name := "s", chapter := "c", image_path := "img.jpg",
    audio_urls := ["http://a/0.mp3", "http://a/1.mp3"],
    webhook_url := some "http://hook" }

/-- Environment in which every external call succeeds. -/
def envOK : Env :=
  { net := fun _ => { status_code := 200, raw := "bytes" },
    load_audio := .ok (), write_audio := .ok "A", make_clips := .ok (),
    write_video := .ok "V",
    drive := { service_account_info := some "sa-json", create_result := .ok "FID" },
    webhook := fun _ => .ok 200 }

/-- Environment in which every download returns a 404. -/
def env404 : Env :=
  { envOK with net := fun _ => { status_code := 404, raw := "" } }

/-- The all-success run of the `reqA` job. -/
def runOK : RunResult := runJob envOK [] [] "vid" reqA

/-- The run of the `reqA` job in which the first download fails. -/
def run404 : RunResult := runJob env404 [] [] "vid" reqA

/-- The `video_db` state between the two success-path writes of
`process_video` (status already `"completed"`, url not yet set). -/
def midSnapshotOK : DB :=
  [("vid", { status := "completed", url := none, task_id := "t1",
             webhook_url := some "http://hook" })]

/-- The registry after three accepted submissions (fresh uuids `"v1"`,
`"v2"`, `"v3"`), before any background task has run. -/
def db3 : DB :=
  (create_video (create_video (create_video [] "v1" reqA).1 "v2" reqA).1 "v3" reqA).1

/-- A raw request body whose `audio_urls` is present but empty (all other
required fields present). -/
def rawEmptyAudio : RawRequest :=
  { task_id := some "t1", story_name := some "s", chapter := some "c",
    image_path := some "img.jpg", audio_urls := some [], webhook_url := none }

/-- A raw request body with no image reference. -/
def rawNoImage : RawRequest :=
  { task_id := some "t1", story_name := some "s", chapter := some "c",
    image_path := none, audio_urls := some ["http://a/0.mp3"], webhook_url := none }

/-! Helper lemmas about the registry and the status strings. -/

theorem DB.entry_cons_self (id : String) (i : TaskInfo) (db : DB) :
    DB.entry ((id, i) :: db) id = some i := by
  simp [DB.entry, List.lookup]

theorem DB.setStatus_cons_self (id : String) (i : TaskInfo) (db : DB) (s : String) :
    DB.setStatus ((id, i) :: db) id s = (id, { i with status := s }) :: DB.setStatus db id s := by
  simp [DB.setStatus]

theorem DB.setUrl_cons_self (id : String) (i : TaskInfo) (db : DB) (u : Option String) :
    DB.setUrl ((id, i) :: db) id u = (id, { i with url := u }) :: DB.setUrl db id u := by
  simp [DB.setUrl]

theorem ne_of_data_head {s t : String} {a b : Char} {x y : List Char}
    (hs : s.data = a :: x) (ht : t.data = b :: y) (hab : a ≠ b) : s ≠ t := by
  intro h
  rw [h, ht] at hs
  injection hs with h1 _
  exact hab h1.symm

theorem err_data (e : String) :
    ("error: " ++ e).data = 'e' :: (['r', 'r', 'o', 'r', ':', ' '] ++ e.data) := rfl

theorem err_ne_processing (e : String) : "error: " ++ e ≠ "processing" :=
  ne_of_data_head (err_data e) rfl (by decide)

theorem err_ne_completed (e : String) : "error: " ++ e ≠ "completed" :=
  ne_of_data_head (err_data e) rfl (by decide)

theorem err_ne_queued (e : String) : "error: " ++ e ≠ "queued" :=
  ne_of_data_head (err_data e) rfl (by decide)

theorem err_ne_empty (e : String) : "error: " ++ e ≠ "" := by
  intro h
  have := congrArg String.data h
  rw [err_data e] at this
  exact List.noConfusion this

theorem absStatus_error (e : String) : absStatus ("error: " ++ e) = .Failed := by
  unfold absStatus
  rw [if_neg (err_ne_processing e), if_neg (err_ne_completed e),
      if_neg (err_ne_queued e), if_pos]
  rw [String.data_append]
  exact List.take_left _ _

/-- C1: the spec claims a counting limiter bounds the number of jobs past
the acquisition point by the configured `N` (default 2).  The code has no
limiter: after three accepted submissions and before any background task
has run, three jobs already occupy the `"processing"` state. -/
theorem claim1_counterexample :
    countProcessing db3 = 3 ∧ ¬ (countProcessing db3 ≤ 2) := by decide

/-- C1 amended: no concurrency limiter exists; the submit handler itself
marks each job `"processing"`, so after any number `k` of accepted
submissions, `k` jobs occupy the processing state simultaneously, with no
bound. -/
theorem claim1_no_limiter (ps : List (String × VideoRequest)) (db : DB) :
    countProcessing (submitAll ps db) = ps.length + countProcessing db := by
  induction ps generalizing db with
  | nil => simp [submitAll]
  | cons p ps ih =>
      have hstep : submitAll (p :: ps) db = submitAll ps ((create_video db p.1 p.2).1) := rfl
      rw [hstep, ih]
      simp [create_video, countProcessing]
      omega

/-- C2: the claim says the job is created with status `Queued` and the
response's status field is `"queued"`.  In the code both are
`"processing"`: at the concrete request `reqA` the response field and an
immediate status query both yield `"processing"`, not `"queued"`. -/
theorem claim2_counterexample :
    ((create_video [] "vid" reqA).2.1).status = "processing" ∧
    "processing" ≠ "queued" ∧
    video_status (create_video [] "vid" reqA).1 "vid" =
      .ok { status := "processing", url := none, task_id := "t1",
            webhook_url := some "http://hook" } :=
  ⟨rfl, by decide, rfl⟩

/-- C2 amended: for every accepted request the submit handler creates the
record with initial status `"processing"` and returns `"processing"` in
the response, and a status query issued before the executor runs returns
that same `"processing"` record. -/
theorem claim2_initial_status (db : DB) (id : String) (req : VideoRequest) :
    ((create_video db id req).2.1).status = "processing" ∧
    video_status (create_video db id req).1 id =
      .ok { status := "processing", url := none, task_id := req.task_id,
            webhook_url := req.webhook_url } := by
  refine ⟨rfl, ?_⟩
  show video_status ((id, _) :: db) id = _
  rw [video_status, DB.entry_cons_self]

/-- C3: the claim says a request with an empty audio list is rejected at
admission with no job created.  In the code pydantic only checks field
presence, so the concrete body `rawEmptyAudio` (audio list present but
empty) is accepted and a job record is created. -/
theorem claim3_counterexample :
    handle_create_video [] "vid" rawEmptyAudio =
      .ok ([("vid", { status := "processing", url := none, task_id := "t1",
                      webhook_url := none })],
           { video_id := "vid", status := "processing", url := none, task_id := "t1" },
           { video_id := "vid", story_name := "s", chapter := "c",
             image_path := "img.jpg", audio_urls := [] }) := rfl

/-- C3 amended: a request missing the image reference (or missing the
audio-list field entirely) is rejected at admission and no job record is
created; any request in which every required field is present — including
one whose audio list is empty — is accepted and a job record is
created. -/
theorem claim3_validation :
    (∀ (db : DB) (id : String) (raw : RawRequest), raw.image_path = none →
        handle_create_video db id raw = .error "422 Unprocessable Entity") ∧
    (∀ (db : DB) (id : String) (raw : RawRequest), raw.audio_urls = none →
        handle_create_video db id raw = .error "422 Unprocessable Entity") ∧
    (∀ (db : DB) (id t s c i : String) (a : List String) (w : Option String),
        handle_create_video db id
            { task_id := some t, story_name := some s, chapter := some c,
              image_path := some i, audio_urls := some a, webhook_url := w } =
          .ok ((id, { status := "processing", url := none, task_id := t,
                      webhook_url := w }) :: db,
               { video_id := id, status := "processing", url := none, task_id := t },
               { video_id := id, story_name := s, chapter := c, image_path := i,
                 audio_urls := a })) := by
  refine ⟨?_, ?_, ?_⟩
  · intro db id raw h
    rcases raw with ⟨t, s, c, i, a, w⟩
    cases h
    cases t <;> cases s <;> cases c <;> cases a <;> rfl
  · intro db id raw h
    rcases raw with ⟨t, s, c, i, a, w⟩
    cases h
    cases t <;> cases s <;> cases c <;> cases i <;> rfl
  · intro db id t s c i a w
    rfl

theorem claim3_validation_witness :
    handle_create_video [] "vid" rawNoImage = .error "422 Unprocessable Entity" :=
  claim3_validation.1 [] "vid" rawNoImage rfl

/-- C5: a fetch failure (the only audio download returns 404) makes the
`try` block raise before the local `final_audio_path` is assigned; the
`finally` block then itself raises `NameError` when it evaluates
`os.path.exists(final_audio_path)`, contradicting the claim that the
cleanup step always completes without raising.  The downloaded temp files
are nevertheless all removed (the filesystem ends empty) and the job has
already been marked failed. -/
theorem claim5_cleanup_name_error :
    run404.raised = some "NameError: name final_audio_path is not defined" ∧
    run404.fs = [] ∧
    video_status run404.db "vid" =
      .ok { status := "error: Failed to download file from url: http://a/0.mp3",
            url := none, task_id := "t1", webhook_url := some "http://hook" } :=
  ⟨rfl, rfl, rfl⟩

/-- C10: `download_file` returns the destination path, having written the
file there, exactly when the response status is 200; for any other status
it raises an exception whose message names the url and writes nothing. -/
theorem claim10_download_file (url dest : String) (resp : HttpResponse) (fs : FS) :
    (∀ (fs2 : FS) (p : String), download_file url dest resp fs = .ok (fs2, p) →
        resp.status_code = 200 ∧ p = dest ∧ fs2 = fs.write dest resp.raw ∧
        FS.fileExists fs2 dest = true) ∧
    (resp.status_code ≠ 200 →
        download_file url dest resp fs =
          .error ("Failed to download file from url: " ++ url)) := by
  constructor
  · intro fs2 p h
    unfold download_file at h
    split at h
    case isTrue hcond =>
      injection h with hpair
      injection hpair with hfs hp
      refine ⟨by simpa using hcond, hp.symm, hfs.symm, ?_⟩
      rw [← hfs]
      simp [FS.write, FS.fileExists]
    case isFalse hcond => cases h
  · intro h
    unfold download_file
    rw [if_neg (by simpa using h)]

theorem claim10_download_file_witness :
    download_file "http://a/0.mp3" "d.mp3" { status_code := 404, raw := "" } [] =
      .error ("Failed to download file from url: " ++ "http://a/0.mp3") :=
  (claim10_download_file "http://a/0.mp3" "d.mp3" { status_code := 404, raw := "" } []).2
    (by decide)

/-! Lemmas about the shape of a run: how `finishRun` rewrites the registry
in each case and what the `try` block produces. -/

theorem finishRun_error (db : DB) (id : String) (t : TryOut) (e : String)
    (h : t.outcome = .error e) :
    finishRun db id t =
      { dbs := [db, DB.setStatus db id ("error: " ++ e)],
        db := DB.setStatus db id ("error: " ++ e),
        fs := (cleanup t.fs t.audio_files t.final_audio_path t.video_file).1,
        audio_files := t.audio_files, downloads := t.downloads,
        webhookCalls := [],
        raised := (cleanup t.fs t.audio_files t.final_audio_path t.video_file).2 } := by
  unfold finishRun
  rw [h]

theorem finishRun_ok (db : DB) (id : String) (t : TryOut) (u : String)
    (h : t.outcome = .ok u) :
    finishRun db id t =
      { dbs := [db, DB.setStatus db id "completed",
                DB.setUrl (DB.setStatus db id "completed") id (some u)],
        db := DB.setUrl (DB.setStatus db id "completed") id (some u),
        fs := (cleanup t.fs t.audio_files t.final_audio_path t.video_file).1,
        audio_files := t.audio_files, downloads := t.downloads,
        webhookCalls := send_webhook (DB.setUrl (DB.setStatus db id "completed") id (some u)) id,
        raised := (cleanup t.fs t.audio_files t.final_audio_path t.video_file).2 } := by
  unfold finishRun
  rw [h]

theorem pipeline_try_head_fail (env : Env) (fs : FS) (id img u : String)
    (rest : List String) (h : (env.net u).status_code ≠ 200) :
    pipeline_try env fs id img (u :: rest) =
      { fs := fs, audio_files := [], final_audio_path := none, video_file := none,
        downloads := [(u, temp_audio_path id 0)],
        outcome := .error ("Failed to download file from url: " ++ u) } := by
  have hb : ((env.net u).status_code == 200) = false := by simpa using h
  simp [pipeline_try, fetch_loop, download_file, hb]

theorem pipeline_try_ok_shape (env : Env) (fs : FS) (id img : String)
    (urls : List String) (u : String)
    (h : (pipeline_try env fs id img urls).outcome = .ok u) :
    ∃ fid, env.drive.create_result = .ok fid ∧
      u = "https://drive.google.com/file/d/" ++ fid ++ "/view?usp=sharing" := by
  unfold pipeline_try at h
  split at h
  · cases h
  · split at h
    · cases h
    · split at h
      · cases h
      · split at h
        · cases h
        · split at h
          · cases h
          · dsimp only at h
            split at h
            · cases h
            · rename_i hup
              unfold upload_to_googledrive at hup
              split at hup
              · cases hup
              · split at hup
                · cases hup
                · rename_i fid hcr
                  injection h with hu
                  injection hup with hu2
                  exact ⟨fid, hcr, by rw [← hu, ← hu2]⟩

theorem drive_url_data (fid : String) :
    ("https://drive.google.com/file/d/" ++ fid ++ "/view?usp=sharing").data =
      'h' :: (("ttps://drive.google.com/file/d/".data ++ fid.data) ++
              "/view?usp=sharing".data) := rfl

theorem drive_url_ne_empty (fid : String) :
    "https://drive.google.com/file/d/" ++ fid ++ "/view?usp=sharing" ≠ "" := by
  intro h
  have hd := congrArg String.data h
  rw [drive_url_data fid] at hd
  exact List.noConfusion hd

theorem absStatus_processing : absStatus "processing" = .Processing := by decide

theorem absStatus_completed : absStatus "completed" = .Completed := by decide

/-- C4: over the whole life of a job — submission then its pipeline run —
the successive statuses of its record, read in every intermediate registry
state and collapsed to their abstract values, are exactly
`Processing, Completed` or `Processing, Failed`: a subsequence of
`Queued, Processing, {Completed|Failed}` that never regresses, never skips
`Processing`, and never changes after a terminal state. -/
theorem claim4_status_monotone (env : Env) (db0 : DB) (fs : FS) (id : String)
    (req : VideoRequest) :
    List.destutter (· ≠ ·) (statusTrace (runJob env db0 fs id req) id) =
        [AbsStatus.Processing, AbsStatus.Completed] ∨
    List.destutter (· ≠ ·) (statusTrace (runJob env db0 fs id req) id) =
        [AbsStatus.Processing, AbsStatus.Failed] := by
  have hrj : runJob env db0 fs id req =
      finishRun (create_video db0 id req).1 id
        (pipeline_try env fs id req.image_path req.audio_urls) := rfl
  rcases h : (pipeline_try env fs id req.image_path req.audio_urls).outcome with e | u
  · right
    rw [hrj, finishRun_error _ _ _ _ h]
    simp only [create_video, DB.setStatus_cons_self]
    simp [statusTrace, DB.entry_cons_self, absStatus_error e, absStatus_processing]
  · left
    rw [hrj, finishRun_ok _ _ _ _ h]
    simp only [create_video, DB.setStatus_cons_self, DB.setUrl_cons_self]
    simp [statusTrace, DB.entry_cons_self, absStatus_processing, absStatus_completed]
    decide

/-- C6: the claim says nothing escapes to the caller of a failed pipeline
run.  In the concrete 404 run the `finally` block's `NameError` does
escape `process_video`. -/
theorem claim6_counterexample : run404.raised ≠ none := by decide

/-- C6 amended: an exception raised by any pipeline stage is caught at the
job boundary and recorded as status `"error: " + str(e)` (never empty, and
naming the failing url when the first fetch fails), with the url field
untouched and no webhook sent; however, if the failure occurred before the
local `final_audio_path` was assigned, the cleanup block raises a
`NameError` that does propagate out of `process_video`. -/
theorem claim6_failure_semantics (env : Env) (db0 : DB) (fs : FS) (id : String)
    (req : VideoRequest) (e : String)
    (h : (pipeline_try env fs id req.image_path req.audio_urls).outcome = .error e) :
    (∃ info, DB.entry (runJob env db0 fs id req).db id = some info ∧
        info.status = "error: " ++ e ∧ info.status ≠ "" ∧ info.url = none) ∧
    (runJob env db0 fs id req).webhookCalls = [] ∧
    (∀ (u : String) (rest : List String), req.audio_urls = u :: rest →
        (env.net u).status_code ≠ 200 →
        e = "Failed to download file from url: " ++ u) ∧
    ((pipeline_try env fs id req.image_path req.audio_urls).final_audio_path = none →
        (runJob env db0 fs id req).raised =
          some "NameError: name final_audio_path is not defined") := by
  have hrj : runJob env db0 fs id req =
      finishRun (create_video db0 id req).1 id
        (pipeline_try env fs id req.image_path req.audio_urls) := rfl
  rw [hrj, finishRun_error _ _ _ _ h]
  refine ⟨?_, rfl, ?_, ?_⟩
  · refine ⟨{ status := "error: " ++ e, url := none, task_id := req.task_id,
              webhook_url := req.webhook_url }, ?_, rfl, err_ne_empty e, rfl⟩
    show DB.entry (DB.setStatus ((id, _) :: db0) id _) id = _
    rw [DB.setStatus_cons_self, DB.entry_cons_self]
  · intro u rest hurls h404
    rw [hurls] at h
    rw [pipeline_try_head_fail env fs id req.image_path u rest h404] at h
    injection h with he
    exact he.symm
  · intro hnone
    rw [hnone]
    rfl

theorem claim6_failure_semantics_witness :
    run404.webhookCalls = [] ∧
    run404.raised = some "NameError: name final_audio_path is not defined" := by
  have h := claim6_failure_semantics env404 [] [] "vid" reqA
    "Failed to download file from url: http://a/0.mp3" rfl
  exact ⟨h.2.1, h.2.2.2 rfl⟩

/-- C7: the claim says that at every observable point the artifact url is
set iff the status is `Completed`.  On the success path the code writes
the status first and the url second, so between the two writes a status
query observes `"completed"` together with an absent url — exactly the
snapshot `midSnapshotOK`, which is the second registry state of the
all-success run. -/
theorem claim7_counterexample :
    runOK.dbs[1]? = some midSnapshotOK ∧
    video_status midSnapshotOK "vid" =
      .ok { status := "completed", url := none, task_id := "t1",
            webhook_url := some "http://hook" } := ⟨rfl, rfl⟩

/-- C7 amended: once a run has ended, the job's record has the artifact
url set (to a non-empty Drive link) iff its status is `"completed"`, and a
failed record has a non-empty status string and no url; during the run,
however, there is one intermediate observable state in which the status is
already `"completed"` while the url is still absent. -/
theorem claim7_artifact_url (env : Env) (db0 : DB) (fs : FS) (id : String)
    (req : VideoRequest) :
    ∃ info, DB.entry (runJob env db0 fs id req).db id = some info ∧
      ((info.status = "completed" ∧ ∃ v, info.url = some v ∧ v ≠ "") ∨
       (info.status ≠ "completed" ∧ info.url = none ∧ info.status ≠ "")) := by
  have hrj : runJob env db0 fs id req =
      finishRun (create_video db0 id req).1 id
        (pipeline_try env fs id req.image_path req.audio_urls) := rfl
  rcases h : (pipeline_try env fs id req.image_path req.audio_urls).outcome with e | u
  · rw [hrj, finishRun_error _ _ _ _ h]
    refine ⟨{ status := "error: " ++ e, url := none, task_id := req.task_id,
              webhook_url := req.webhook_url }, ?_,
            Or.inr ⟨err_ne_completed e, rfl, err_ne_empty e⟩⟩
    show DB.entry (DB.setStatus ((id, _) :: db0) id _) id = _
    rw [DB.setStatus_cons_self, DB.entry_cons_self]
  · rw [hrj, finishRun_ok _ _ _ _ h]
    obtain ⟨fid, _, hu⟩ := pipeline_try_ok_shape env fs id req.image_path req.audio_urls u h
    refine ⟨{ status := "completed", url := some u, task_id := req.task_id,
              webhook_url := req.webhook_url }, ?_,
            Or.inl ⟨rfl, u, rfl, ?_⟩⟩
    · show DB.entry (DB.setUrl (DB.setStatus ((id, _) :: db0) id _) id _) id = _
      rw [DB.setStatus_cons_self, DB.setUrl_cons_self, DB.entry_cons_self]
    · rw [hu]
      exact drive_url_ne_empty fid

theorem run_db_error (db0 : DB) (id : String) (req : VideoRequest) (e : String) :
    DB.setStatus (create_video db0 id req).1 id ("error: " ++ e) =
      (id, { status := "error: " ++ e, url := none, task_id := req.task_id,
             webhook_url := req.webhook_url }) :: DB.setStatus db0 id ("error: " ++ e) := by
  show DB.setStatus ((id, _) :: db0) id _ = _
  rw [DB.setStatus_cons_self]

theorem run_db_ok (db0 : DB) (id : String) (req : VideoRequest) (u : String) :
    DB.setUrl (DB.setStatus (create_video db0 id req).1 id "completed") id (some u) =
      (id, { status := "completed", url := some u, task_id := req.task_id,
             webhook_url := req.webhook_url }) ::
        DB.setUrl (DB.setStatus db0 id "completed") id (some u) := by
  show DB.setUrl (DB.setStatus ((id, _) :: db0) id _) id _ = _
  rw [DB.setStatus_cons_self, DB.setUrl_cons_self]

/-- C8: for a job with a (non-empty) webhook url, the webhook POST is made
exactly once and only on the success path, with a body holding exactly the
correlation id, the final status and the artifact url; and the behaviour
of the webhook endpoint has no effect whatsoever on the run (in particular
a delivery failure never changes the job's status). -/
theorem claim8_webhook (env : Env) (db0 : DB) (fs : FS) (id : String)
    (req : VideoRequest) (u : String) (hw : req.webhook_url = some u)
    (hne : u ≠ "") :
    (∀ info, DB.entry (runJob env db0 fs id req).db id = some info →
        (info.status = "completed" →
            ∃ v, info.url = some v ∧
              (runJob env db0 fs id req).webhookCalls =
                [{ url := u, task_id := req.task_id, status := "completed",
                   video_url := some v }]) ∧
        (info.status ≠ "completed" →
            (runJob env db0 fs id req).webhookCalls = [])) ∧
    (∀ wh : String → Except String Nat,
        runJob { env with webhook := wh } db0 fs id req =
          runJob env db0 fs id req) := by
  have hrj : runJob env db0 fs id req =
      finishRun (create_video db0 id req).1 id
        (pipeline_try env fs id req.image_path req.audio_urls) := rfl
  constructor
  · rcases h : (pipeline_try env fs id req.image_path req.audio_urls).outcome with e | v
    · intro info hinfo
      rw [hrj, finishRun_error _ _ _ _ h] at hinfo ⊢
      rw [show RunResult.db
            { dbs := [(create_video db0 id req).1,
                      DB.setStatus (create_video db0 id req).1 id ("error: " ++ e)],
              db := DB.setStatus (create_video db0 id req).1 id ("error: " ++ e),
              fs := _, audio_files := _, downloads := _, webhookCalls := [],
              raised := _ } =
          DB.setStatus (create_video db0 id req).1 id ("error: " ++ e) from rfl,
         run_db_error, DB.entry_cons_self] at hinfo
      injection hinfo with hinfo
      subst hinfo
      refine ⟨fun hc => absurd hc (err_ne_completed e), fun _ => rfl⟩
    · intro info hinfo
      rw [hrj, finishRun_ok _ _ _ _ h] at hinfo ⊢
      rw [show RunResult.db
            { dbs := [(create_video db0 id req).1,
                      DB.setStatus (create_video db0 id req).1 id "completed",
                      DB.setUrl (DB.setStatus (create_video db0 id req).1 id "completed")
                        id (some v)],
              db := DB.setUrl (DB.setStatus (create_video db0 id req).1 id "completed")
                      id (some v),
              fs := _, audio_files := _, downloads := _,
              webhookCalls := send_webhook
                (DB.setUrl (DB.setStatus (create_video db0 id req).1 id "completed")
                  id (some v)) id,
              raised := _ } =
          DB.setUrl (DB.setStatus (create_video db0 id req).1 id "completed")
            id (some v) from rfl,
         run_db_ok, DB.entry_cons_self] at hinfo
      injection hinfo with hinfo
      subst hinfo
      constructor
      · intro _
        refine ⟨v, rfl, ?_⟩
        show send_webhook
            (DB.setUrl (DB.setStatus (create_video db0 id req).1 id "completed")
              id (some v)) id = _
        rw [run_db_ok]
        unfold send_webhook
        rw [DB.entry_cons_self]
        dsimp only
        rw [hw]
        dsimp only
        rw [if_neg hne]
      · intro hc
        exact absurd rfl hc
  · intro wh
    have hp : pipeline_try { env with webhook := wh } fs id req.image_path
        req.audio_urls = pipeline_try env fs id req.image_path req.audio_urls := by
      cases env
      rfl
    show finishRun (create_video db0 id req).1 id
        (pipeline_try { env with webhook := wh } fs id req.image_path req.audio_urls) =
      runJob env db0 fs id req
    rw [hp]
    exact hrj.symm

theorem claim8_webhook_witness :
    runOK.webhookCalls =
      [{ url := "http://hook", task_id := "t1", status := "completed",
         video_url := some "https://drive.google.com/file/d/FID/view?usp=sharing" }] := by
  have h := claim8_webhook envOK [] [] "vid" reqA "http://hook" rfl (by decide)
  have h2 := (h.1 { status := "completed",
                    url := some "https://drive.google.com/file/d/FID/view?usp=sharing",
                    task_id := "t1", webhook_url := some "http://hook" } rfl).1 rfl
  obtain ⟨v, hv, hcalls⟩ := h2
  injection hv with hv
  show (runJob envOK [] [] "vid" reqA).webhookCalls = _
  rw [hcalls, ← hv]
  rfl

/-! Development for the temp-path naming scheme: `Nat.repr` is injective
and the underscore separating the job id from the segment index lets the
path be parsed back, so `temp_audio_path` never collides across jobs or
segments. -/

theorem uscore_split :
    ∀ (a b x y : List Char), '_' ∉ a → '_' ∉ b →
      a ++ '_' :: x = b ++ '_' :: y → a = b ∧ x = y := by
  intro a
  induction a with
  | nil =>
      intro b x y _ hb h
      cases b with
      | nil =>
          simp only [List.nil_append] at h
          injection h with _ h2
          exact ⟨rfl, h2⟩
      | cons d bs =>
          simp only [List.nil_append, List.cons_append] at h
          injection h with h1 _
          exact absurd (h1 ▸ List.mem_cons_self d bs) hb
  | cons c as ih =>
      intro b x y ha hb h
      cases b with
      | nil =>
          simp only [List.cons_append, List.nil_append] at h
          injection h with h1 _
          exact absurd (h1 ▸ List.mem_cons_self c as) ha
      | cons d bs =>
          simp only [List.cons_append] at h
          injection h with h1 h2
          have ha2 : '_' ∉ as := fun hm => ha (List.mem_cons_of_mem c hm)
          have hb2 : '_' ∉ bs := fun hm => hb (List.mem_cons_of_mem d hm)
          obtain ⟨hab, hxy⟩ := ih bs x y ha2 hb2 h2
          exact ⟨by rw [h1, hab], hxy⟩

theorem digitVal_digitChar (m : Nat) (h : m < 10) :
    digitVal (Nat.digitChar m) = m := by
  interval_cases m <;> rfl

theorem toDigitsCore_shift (b : Nat) :
    ∀ (f n : Nat) (ds : List Char),
      Nat.toDigitsCore b f n ds = Nat.toDigitsCore b f n [] ++ ds := by
  intro f
  induction f with
  | zero => intro n ds; simp [Nat.toDigitsCore]
  | succ f ih =>
      intro n ds
      simp only [Nat.toDigitsCore]
      by_cases h : n / b = 0
      · simp [h]
      · simp only [if_neg h]
        rw [ih (n / b) ((n % b).digitChar :: ds), ih (n / b) [(n % b).digitChar]]
        simp

theorem valOf_append_singleton (l : List Char) (c : Char) :
    valOf (l ++ [c]) = 10 * valOf l + digitVal c := by
  simp [valOf, List.foldl_append]

theorem valOf_toDigitsCore :
    ∀ (f n : Nat), n < f → valOf (Nat.toDigitsCore 10 f n []) = n := by
  intro f
  induction f with
  | zero => intro n h; omega
  | succ f ih =>
      intro n h
      simp only [Nat.toDigitsCore]
      by_cases h0 : n / 10 = 0
      · simp only [if_pos h0]
        have hlt : n % 10 < 10 := Nat.mod_lt _ (by omega)
        have : valOf [(n % 10).digitChar] = n % 10 := by
          simp [valOf, digitVal_digitChar _ hlt]
        rw [this]
        omega
      · simp only [if_neg h0]
        rw [toDigitsCore_shift 10 f (n / 10) [(n % 10).digitChar]]
        rw [valOf_append_singleton]
        have hdiv : n / 10 < f := by
          have h1 : n / 10 < n := Nat.div_lt_self (by omega) (by omega)
          omega
        rw [ih (n / 10) hdiv]
        have hlt : n % 10 < 10 := Nat.mod_lt _ (by omega)
        rw [digitVal_digitChar _ hlt]
        omega

theorem nat_repr_injective (m n : Nat) (h : Nat.repr m = Nat.repr n) : m = n := by
  unfold Nat.repr at h
  have hl : Nat.toDigits 10 m = Nat.toDigits 10 n := congrArg String.data h
  unfold Nat.toDigits at hl
  have hm := valOf_toDigitsCore (m + 1) m (by omega)
  have hn := valOf_toDigitsCore (n + 1) n (by omega)
  rw [← hm, ← hn, hl]

theorem temp_audio_path_inj (id1 id2 : String) (i1 i2 : Nat)
    (h1 : '_' ∉ id1.data) (h2 : '_' ∉ id2.data)
    (h : temp_audio_path id1 i1 = temp_audio_path id2 i2) : id1 = id2 ∧ i1 = i2 := by
  unfold temp_audio_path at h
  have hd := congrArg String.data h
  simp only [String.data_append] at hd
  simp only [List.append_assoc] at hd
  have hd2 := List.append_cancel_left hd
  simp only [List.singleton_append] at hd2
  obtain ⟨hid, htail⟩ := uscore_split _ _ _ _ h1 h2 hd2
  refine ⟨String.ext_iff.mpr hid, ?_⟩
  have hrepr : (toString i1).data = (toString i2).data := List.append_cancel_right htail
  exact nat_repr_injective i1 i2 (String.ext_iff.mpr hrepr)

theorem pathsFrom_eq_map (id : String) :
    ∀ (l : List String) (idx : Nat),
      pathsFrom id idx l = (List.range l.length).map (fun k => temp_audio_path id (idx + k)) := by
  intro l
  induction l with
  | nil => intro idx; rfl
  | cons u rest ih =>
      intro idx
      simp only [pathsFrom, List.length_cons, List.range_succ_eq_map, List.map_cons,
                 List.map_map]
      rw [ih (idx + 1)]
      congr 1
      apply List.map_congr_left
      intro k _
      simp only [Function.comp]
      congr 1
      omega

theorem fetch_loop_all200 (net : String → HttpResponse) (id : String) :
    ∀ (urls : List String) (idx : Nat) (fs : FS) (acc : List String)
      (dls : List (String × String)),
      (∀ u ∈ urls, (net u).status_code = 200) →
      ∃ fs1, fetch_loop net id urls idx fs acc dls =
        (fs1, acc ++ pathsFrom id idx urls,
         dls ++ urls.zip (pathsFrom id idx urls), none) := by
  intro urls
  induction urls with
  | nil => intro idx fs acc dls _; exact ⟨fs, by simp [fetch_loop, pathsFrom]⟩
  | cons u rest ih =>
      intro idx fs acc dls hall
      have h200 : (net u).status_code = 200 := hall u (List.mem_cons_self u rest)
      have hb : ((net u).status_code == 200) = true := by simpa using h200
      simp only [fetch_loop, download_file, hb, if_true]
      obtain ⟨fs1, hrec⟩ := ih (idx + 1) (fs.write (temp_audio_path id idx) (net u).raw)
        (acc ++ [temp_audio_path id idx]) (dls ++ [(u, temp_audio_path id idx)])
        (fun v hv => hall v (List.mem_cons_of_mem u hv))
      refine ⟨fs1, ?_⟩
      rw [hrec]
      simp [pathsFrom, List.zip_cons_cons]

theorem pipeline_try_fields (env : Env) (fs : FS) (id img : String)
    (urls : List String) :
    (pipeline_try env fs id img urls).audio_files =
      (fetch_loop env.net id urls 0 fs [] []).2.1 ∧
    (pipeline_try env fs id img urls).downloads =
      (fetch_loop env.net id urls 0 fs [] []).2.2.1 := by
  unfold pipeline_try
  rcases hf : fetch_loop env.net id urls 0 fs [] [] with ⟨fs1, files, dls, e⟩
  cases e with
  | none =>
      dsimp only
      constructor
      · repeat' split
        all_goals rfl
      · repeat' split
        all_goals rfl
  | some e =>
      dsimp only
      exact ⟨rfl, rfl⟩

theorem runJob_fields (env : Env) (db0 : DB) (fs : FS) (id : String)
    (req : VideoRequest) :
    (runJob env db0 fs id req).audio_files =
      (pipeline_try env fs id req.image_path req.audio_urls).audio_files ∧
    (runJob env db0 fs id req).downloads =
      (pipeline_try env fs id req.image_path req.audio_urls).downloads := by
  have hrj : runJob env db0 fs id req =
      finishRun (create_video db0 id req).1 id
        (pipeline_try env fs id req.image_path req.audio_urls) := rfl
  rcases h : (pipeline_try env fs id req.image_path req.audio_urls).outcome with e | u
  · rw [hrj, finishRun_error _ _ _ _ h]
    exact ⟨rfl, rfl⟩
  · rw [hrj, finishRun_ok _ _ _ _ h]
    exact ⟨rfl, rfl⟩

/-- C9: with every download succeeding, the Fetch stage downloads the audio
urls in request order, the i-th to the path built from the job id and the
index i, and collects the local paths in that same order; and the path
construction is injective (for ids without an underscore, which uuid4
strings never contain), so paths of distinct jobs or distinct segments
never collide. -/
theorem claim9_fetch (env : Env) (db0 : DB) (fs : FS) (id : String)
    (req : VideoRequest) :
    ((∀ u ∈ req.audio_urls, (env.net u).status_code = 200) →
        (runJob env db0 fs id req).audio_files =
          (List.range req.audio_urls.length).map (temp_audio_path id) ∧
        (runJob env db0 fs id req).downloads =
          req.audio_urls.zip
            ((List.range req.audio_urls.length).map (temp_audio_path id))) ∧
    (∀ (id1 id2 : String) (i1 i2 : Nat), '_' ∉ id1.data → '_' ∉ id2.data →
        temp_audio_path id1 i1 = temp_audio_path id2 i2 → id1 = id2 ∧ i1 = i2) := by
  constructor
  · intro hall
    obtain ⟨fs1, hfl⟩ := fetch_loop_all200 env.net id req.audio_urls 0 fs [] [] hall
    have hp := pipeline_try_fields env fs id req.image_path req.audio_urls
    have hr := runJob_fields env db0 fs id req
    have hpaths : pathsFrom id 0 req.audio_urls =
        (List.range req.audio_urls.length).map (temp_audio_path id) := by
      rw [pathsFrom_eq_map]
      apply List.map_congr_left
      intro k _
      rw [Nat.zero_add]
    constructor
    · rw [hr.1, hp.1, hfl]
      dsimp only
      rw [List.nil_append, hpaths]
    · rw [hr.2, hp.2, hfl]
      dsimp only
      rw [List.nil_append, hpaths]
  · exact fun id1 id2 i1 i2 h1 h2 h => temp_audio_path_inj id1 id2 i1 i2 h1 h2 h

theorem claim9_fetch_witness :
    runOK.audio_files = ["temp_audio_vid_0.mp3", "temp_audio_vid_1.mp3"] ∧
    ("vid" = "vid" ∧ (3 : Nat) = 3) := by
  have h := claim9_fetch envOK [] [] "vid" reqA
  constructor
  · have h1 := (h.1 (fun u hu => rfl)).1
    show (runJob envOK [] [] "vid" reqA).audio_files = _
    rw [h1]
    rfl
  · exact h.2 "vid" "vid" 3 3 (by decide) (by decide) rfl

end ApiCreateVideo
